import Mathlib

/-!
Shallow embedding of `src/fpds_monitor.py`.

The program scrapes a contract-award portal, extracts records from the
largest table of the page markup, deduplicates them against a persisted
seen-set and sends one notification per new record.

Modelling conventions:
* Python strings are Lean `String`; the handful of Python string methods
  used by the source are re-implemented below on `List Char` so that all
  definitions evaluate by kernel reduction (`pyStrip` models `str.strip`,
  `pyLower` models `str.lower`, `pyContains hay needle` models
  `needle in hay`, `pyStartsWith` models `str.startswith`, `pyJoin`
  models `sep.join`, `pySlice n` models `[:n]`, `lastSegment` models
  `s.rsplit("/", 1)[-1]`).
* BeautifulSoup is an external collaborator; its output is modelled
  structurally: a parsed document is a `List Table`, where a `Table`
  carries the texts of all its `th` cells (`find_all("th")`) and its
  rows (`find_all("tr")`), and a row `Tr` carries the visible texts of
  its `td` cells (`get_text(" ", strip=True)`) and the anchors with an
  `href` attribute found in the row, in document order.
* Playwright is an external collaborator; a `Page` is modelled as the
  outcomes of the locator primitives the source calls: each primitive
  either completes (`true` / `some`) or raises (`false` / `none`).
  Exception-freedom of the wrapper functions is modelled by totality.
* The Python `set` of seen ids is modelled as a `List String` used
  up to membership; `seen.add` is conditional cons.
-/

set_option maxRecDepth 20000

/-! ### Python string primitives -/

/-- Models `str.strip()`: drop leading and trailing whitespace. -/
def pyStrip (s : String) : String :=
  String.mk (((s.data.dropWhile Char.isWhitespace).reverse.dropWhile Char.isWhitespace).reverse)

/-- Models `str.lower()` on the characters of the string. -/
def pyLower (s : String) : String :=
  String.mk (s.data.map Char.toLower)

/-- Substring test on character lists: true iff `needle` occurs contiguously in the list. -/
def containsSub (needle : List Char) : List Char → Bool
  | [] => needle.isEmpty
  | c :: cs => List.isPrefixOf needle (c :: cs) || containsSub needle cs

/-- Models Python `needle in hay` for strings. -/
def pyContains (hay needle : String) : Bool :=
  containsSub needle.data hay.data

/-- Models `s.startswith(pre0)`. -/
def pyStartsWith (s pre0 : String) : Bool :=
  List.isPrefixOf pre0.data s.data

/-- Models `sep.join(xs)`. -/
def pyJoin (sep : String) : List String → String
  | [] => ""
  | [x] => x
  | x :: y :: xs => x ++ sep ++ pyJoin sep (y :: xs)

/-- Models the slice `s[:n]` (first `n` characters). -/
def pySlice (n : Nat) (s : String) : String :=
  String.mk (s.data.take n)

/-- Models `s.rsplit("/", 1)[-1]`: the part of `s` after the last slash
(the whole of `s` when it holds no slash). -/
def lastSegment (s : String) : String :=
  String.mk ((s.data.reverse.takeWhile (fun c => !(c == '/'))).reverse)

/-- Models `s.lstrip("./")`: drop the leading characters that are a dot or a slash. -/
def pyLstripDotSlash (s : String) : String :=
  String.mk (s.data.dropWhile (fun c => c == '.' || c == '/'))

/-! ### Structural model of the parsed markup -/

/-- An `a` element with an `href` attribute, as returned by
`tr.find_all("a", href=True)`: its address and its visible text
(`get_text(strip=True)`). -/
structure Anchor where
  href : String
  text : String
  deriving DecidableEq

/-- One `tr` row: the visible texts of its `td` cells and the anchors of the row. -/
structure Tr where
  tds : List String
  links : List Anchor
  deriving DecidableEq

/-- One `table` element: the texts of all its `th` cells (`find_all("th")`)
and all its `tr` rows (`find_all("tr")`). -/
structure Table where
  ths : List String
  trs : List Tr
  deriving DecidableEq

/-- The normalized record dictionary built for one data row
(lines 142-149 of the source). -/
structure Record where
  id : String
  title : String
  vendor : String
  date : String
  amount : String
  link : String
  deriving DecidableEq

/-! ### Table extractor (`parse_results_table`, lines 96-150) -/

/-- The portal root address used as link default and prefix. -/
def rootUrl : String := "https://www.fpds.gov"

/-- One step of the best-table scan (lines 101-104): keep the candidate with
the strictly greatest row count among tables with more than one row. -/
def bestStep (acc : Option Table × Nat) (t : Table) : Option Table × Nat :=
  if t.trs.length > acc.2 ∧ t.trs.length > 1 then (some t, t.trs.length) else acc

/-- The selected results table (lines 100-106): `none` when no table has more
than one row. -/
def bestTable (tables : List Table) : Option Table :=
  (tables.foldl bestStep (none, 0)).1

/-- The header scan of lines 123-131: walk the header list left to right with
a running index into the row texts and first-truthy-wins accumulators for
vendor, date and amount.  `row_texts.getD idx ""` models
`row_texts[idx] if idx < len(row_texts) else ""`. -/
def scanCols (headers row_texts : List String) (idx : Nat) (vendor date_signed amount : String) : String × String × String :=
  match headers with
  | [] => (vendor, date_signed, amount)
  | head :: rest =>
    scanCols rest row_texts (idx + 1)
      (if (pyContains (pyLower head) "vendor" = true ∨ pyContains (pyLower head) "contractor" = true) ∧ vendor = ""
       then row_texts.getD idx "" else vendor)
      (if pyContains (pyLower head) "date" = true ∧ date_signed = ""
       then row_texts.getD idx "" else date_signed)
      (if (pyContains (pyLower head) "amount" = true ∨ pyContains (pyLower head) "value" = true ∨ pyContains (row_texts.getD idx "") "$" = true) ∧ amount = ""
       then row_texts.getD idx "" else amount)

/-- Window test for the regex `\d{2}/\d{2}/\d{4}` anchored at the head of the list. -/
def isDatePatAt : List Char → Bool
  | d1 :: d2 :: s1 :: d3 :: d4 :: s2 :: d5 :: d6 :: d7 :: d8 :: _ =>
    d1.isDigit && d2.isDigit && (s1 == '/') && d3.isDigit && d4.isDigit && (s2 == '/') &&
      d5.isDigit && d6.isDigit && d7.isDigit && d8.isDigit
  | _ => false

/-- Leftmost match of the regex `\d{2}/\d{2}/\d{4}`, as `re.search` finds it. -/
def findDateChars : List Char → Option (List Char)
  | [] => none
  | c :: cs => if isDatePatAt (c :: cs) = true then some ((c :: cs).take 10) else findDateChars cs

/-- Models `re.search(r"\d{2}/\d{2}/\d{4}", s)` returning the matched text. -/
def findDatePattern (s : String) : Option String :=
  (findDateChars s.data).map String.mk

/-- Link normalization of lines 137-140 (before the final default of line 148). -/
def normalizeLink (link : String) : String :=
  if pyStartsWith link "/" = true then rootUrl ++ link
  else if link ≠ "" ∧ pyStartsWith link "http" = false then rootUrl ++ "/" ++ pyLstripDotSlash link
  else link

/-- The loop body of lines 113-149 for one data row: build the record from the
header texts and the row. -/
def mkRecord (headers : List String) (tr : Tr) : Record :=
  let row_texts := tr.tds
  let link0 : String := match tr.links with | [] => "" | a :: _ => a.href
  let title : String := match tr.links with | [] => "FPDS Result" | a :: _ => a.text
  let award_id : String :=
    if title ≠ "" then title
    else match tr.links with
      | a :: _ => lastSegment a.href
      | [] => pySlice 120 (pyJoin "|" row_texts)
  let fields := scanCols headers row_texts 0 "" "" ""
  let date_signed : String :=
    if fields.2.1 = "" then (findDatePattern (pyJoin " " row_texts)).getD "" else fields.2.1
  let nlink := normalizeLink link0
  { id := pyStrip award_id
    title := if title = "" then "FPDS Result" else title
    vendor := fields.1
    date := date_signed
    amount := fields.2.2
    link := if nlink = "" then rootUrl else nlink }

/-- `parse_results_table` (lines 96-150): pick the best table, then build one
record per row holding at least one `td` cell, in document order. -/
def parse_results_table (tables : List Table) : List Record :=
  match bestTable tables with
  | none => []
  | some bt => bt.trs.foldl (fun acc tr => if tr.tds = [] then acc else acc ++ [mkRecord bt.ths tr]) []

/-! ### Characterizations used by the amended claims.

The next two definitions follow the amended spec wording (first matching
column with a non-empty value), to be proved equal to what the source loop
computes. -/

/-- Value of the first column whose lower-cased header holds "date" and whose
cell value is non-empty; "" when there is none. -/
def firstDateFrom (headers row_texts : List String) (idx : Nat) : String :=
  match headers with
  | [] => ""
  | head :: rest =>
    if pyContains (pyLower head) "date" = true ∧ row_texts.getD idx "" ≠ ""
    then row_texts.getD idx ""
    else firstDateFrom rest row_texts (idx + 1)

/-- Value of the first column whose header holds "amount" or "value" or whose
cell text holds a dollar sign, and whose cell value is non-empty; "" when
there is none.  Only positions covered by the header list are scanned. -/
def firstAmountFrom (headers row_texts : List String) (idx : Nat) : String :=
  match headers with
  | [] => ""
  | head :: rest =>
    if (pyContains (pyLower head) "amount" = true ∨ pyContains (pyLower head) "value" = true ∨ pyContains (row_texts.getD idx "") "$" = true) ∧ row_texts.getD idx "" ≠ ""
    then row_texts.getD idx ""
    else firstAmountFrom rest row_texts (idx + 1)

/-! ### Dedup and notify pipeline (`main`, lines 236-264) -/

/-- The notification text built for one new record (lines 253-258).
`r.get(k) or d` is modelled by an emptiness test. -/
def buildMessage (r : Record) : String :=
  pyJoin "\n"
    (["🆕 **" ++ (if r.title = "" then "FPDS Result" else r.title) ++ "**"]
      ++ (if r.vendor = "" then [] else ["Vendor: " ++ r.vendor])
      ++ (if r.date = "" then [] else ["Date: " ++ r.date])
      ++ (if r.amount = "" then [] else ["Amount: " ++ r.amount])
      ++ [if r.link = "" then rootUrl else r.link])

/-- The dedup loop of lines 249-260: returns the final seen-set, the
notification messages sent (in order) and the count of new records.
`rid` models `(r.get("id") or "").strip()`. -/
def dedupNotify : List Record → List String → List String × List String × Nat
  | [], seen => (seen, [], 0)
  | r :: rest, seen =>
    if pyStrip r.id ≠ "" ∧ pyStrip r.id ∉ seen then
      let res := dedupNotify rest (pyStrip r.id :: seen)
      (res.1, buildMessage r :: res.2.1, res.2.2 + 1)
    else dedupNotify rest seen

/-- The summary notification of line 246. -/
def noResultsMsg (startDate endDate : String) : String :=
  "⚠️ No FPDS results found for this run (" ++ startDate ++ " – " ++ endDate ++ ")."

/-- The summary notification of line 263. -/
def noNewMsg : String := "ℹ️ No new FPDS items since last check."

/-- The top-level error notification of line 242. -/
def errorMsg (e : String) : String := "❗ FPDS monitor error: `" ++ e ++ "`"

/-- `main` after `run_once` returned (lines 239-264): from the run outcome
(an exception description or the collected records) and the loaded seen-set,
the notifications sent by `main`, the final seen-set, and whether
`save_seen` was called. -/
def mainRun (startDate endDate : String) (outcome : Except String (List Record)) (seen : List String) : List String × List String × Bool :=
  match outcome with
  | Except.error e => ([errorMsg e], seen, false)
  | Except.ok results =>
    if results = [] then ([noResultsMsg startDate endDate], seen, false)
    else
      let d := dedupNotify results seen
      (d.2.1 ++ (if d.2.2 = 0 then [noNewMsg] else []), d.1, true)

/-! ### Selector-fallback interactor (`safe_fill`, `safe_type`,
`click_first_that_exists`, lines 47-94) -/

/-- Outcomes of the Playwright locator primitives the source calls.  Each
field is `true`/`some` when the corresponding call sequence completes and
`false`/`none` when it raises.  The composite action sequences of
`safe_type` (click, clear, type) are modelled by one combined outcome. -/
structure Page where
  labelFill : String → String → Bool
  labelTypeSeq : String → String → Bool
  locatorCount : String → Option Nat
  firstFill : String → String → Bool
  firstTypeSeq : String → String → Bool
  firstClick : String → Bool

/-- Models `sel.split("label:", 1)[1]` after a positive `startswith` test. -/
def labelText (sel : String) : String := String.mk (sel.data.drop 6)

/-- `safe_fill` (lines 47-62) with an explicit trace of the candidates on
which the fill action completed (always none or one). -/
def safe_fill (page : Page) (candidates : List String) (value : String) : Bool × List String :=
  match candidates with
  | [] => (false, [])
  | sel :: rest =>
    if pyStartsWith sel "label:" = true then
      if page.labelFill (labelText sel) value = true then (true, [sel])
      else safe_fill page rest value
    else
      match page.locatorCount sel with
      | some n =>
        if 0 < n then
          if page.firstFill sel value = true then (true, [sel]) else safe_fill page rest value
        else safe_fill page rest value
      | none => safe_fill page rest value

/-- `safe_type` (lines 64-83), same shape as `safe_fill` with the
click/clear/type action sequence. -/
def safe_type (page : Page) (candidates : List String) (value : String) : Bool × List String :=
  match candidates with
  | [] => (false, [])
  | sel :: rest =>
    if pyStartsWith sel "label:" = true then
      if page.labelTypeSeq (labelText sel) value = true then (true, [sel])
      else safe_type page rest value
    else
      match page.locatorCount sel with
      | some n =>
        if 0 < n then
          if page.firstTypeSeq sel value = true then (true, [sel]) else safe_type page rest value
        else safe_type page rest value
      | none => safe_type page rest value

/-- `click_first_that_exists` (lines 85-94): no label branch in the source. -/
def click_first_that_exists (page : Page) (candidates : List String) : Bool × List String :=
  match candidates with
  | [] => (false, [])
  | sel :: rest =>
    match page.locatorCount sel with
    | some n =>
      if 0 < n then
        if page.firstClick sel = true then (true, [sel]) else click_first_that_exists page rest
      else click_first_that_exists page rest
    | none => click_first_that_exists page rest

/-- Net outcome of one `safe_fill` candidate: true iff trying it performs the
fill and returns. -/
def fillCandOk (page : Page) (value sel : String) : Bool :=
  if pyStartsWith sel "label:" = true then page.labelFill (labelText sel) value
  else
    match page.locatorCount sel with
    | some n => if 0 < n then page.firstFill sel value else false
    | none => false

/-- Net outcome of one `safe_type` candidate. -/
def typeCandOk (page : Page) (value sel : String) : Bool :=
  if pyStartsWith sel "label:" = true then page.labelTypeSeq (labelText sel) value
  else
    match page.locatorCount sel with
    | some n => if 0 < n then page.firstTypeSeq sel value else false
    | none => false

/-- Net outcome of one `click_first_that_exists` candidate. -/
def clickCandOk (page : Page) (sel : String) : Bool :=
  match page.locatorCount sel with
  | some n => if 0 < n then page.firstClick sel else false
  | none => false

/-- Reference shape shared by the three wrappers: act on the first candidate
whose net outcome is positive. -/
def fallbackRun (ok : String → Bool) : List String → Bool × List String
  | [] => (false, [])
  | c :: rest => if ok c = true then (true, [c]) else fallbackRun ok rest

/-! ### Concrete inputs used by counterexamples and witnesses -/

/-- Markup input with one table of two link-less data rows. -/
def tableNoLinks : Table := ⟨[], [⟨["r1"], []⟩, ⟨["A", "B"], []⟩]⟩

/-- Markup input whose first data row carries a hyperlink with empty visible
text and an address ending in a slash. -/
def tableSlashLink : Table := ⟨[], [⟨["x"], [⟨"/x/", ""⟩]⟩, ⟨["y"], []⟩]⟩

/-- Markup input with a date-headed first column whose cell is empty and a
second column holding a date-shaped value. -/
def tableEmptyDateCol : Table := ⟨["Date", "X"], [⟨[], []⟩, ⟨["", "01/02/2024"], []⟩]⟩

/-- Markup input with no header cells and a dollar-bearing first cell. -/
def tableHeaderless : Table := ⟨[], [⟨["$100"], []⟩, ⟨["z"], []⟩]⟩

/-- Concrete record used as a witness input. -/
def recX : Record := ⟨"X", "T", "", "", "", "https://www.fpds.gov"⟩

/-- Concrete page outcomes used as a witness input: the selector "bad"
resolves to zero elements, every other selector resolves to one element and
every action completes. -/
def pageW : Page :=
  ⟨fun _ _ => true, fun _ _ => true, fun s => if s = "bad" then some 0 else some 1,
   fun _ _ => true, fun _ _ => true, fun _ => true⟩

/-! ### Lemmas about the dedup loop -/

lemma dedupNotify_seen_mono : ∀ (rs : List Record) (seen : List String) (x : String), x ∈ seen → x ∈ (dedupNotify rs seen).1 := by
  intro rs
  induction rs with
  | nil => intro seen x hx; simpa [dedupNotify] using hx
  | cons r rest ih =>
    intro seen x hx
    by_cases h : pyStrip r.id ≠ "" ∧ pyStrip r.id ∉ seen
    · simp only [dedupNotify, if_pos h]
      exact ih _ x (List.mem_cons_of_mem _ hx)
    · simp only [dedupNotify, if_neg h]
      exact ih _ x hx

lemma dedupNotify_covers : ∀ (rs : List Record) (seen : List String) (r : Record), r ∈ rs → pyStrip r.id ≠ "" → pyStrip r.id ∈ (dedupNotify rs seen).1 := by
  intro rs
  induction rs with
  | nil => intro seen r hr; exact absurd hr (List.not_mem_nil r)
  | cons q rest ih =>
    intro seen r hr hne
    rcases List.mem_cons.mp hr with hq | hr
    · subst hq
      by_cases h : pyStrip r.id ≠ "" ∧ pyStrip r.id ∉ seen
      · simp only [dedupNotify, if_pos h]
        exact dedupNotify_seen_mono _ _ _ (List.mem_cons_self _ _)
      · have hmem : pyStrip r.id ∈ seen := by
          by_contra hs
          exact h ⟨hne, hs⟩
        simp only [dedupNotify, if_neg h]
        exact dedupNotify_seen_mono _ _ _ hmem
    · by_cases h : pyStrip q.id ≠ "" ∧ pyStrip q.id ∉ seen
      · simp only [dedupNotify, if_pos h]
        exact ih _ r hr hne
      · simp only [dedupNotify, if_neg h]
        exact ih _ r hr hne

lemma dedupNotify_noop : ∀ (rs : List Record) (seen : List String), (∀ r ∈ rs, pyStrip r.id = "" ∨ pyStrip r.id ∈ seen) → dedupNotify rs seen = (seen, [], 0) := by
  intro rs
  induction rs with
  | nil => intro seen _; rfl
  | cons r rest ih =>
    intro seen h
    have hr := h r (List.mem_cons_self _ _)
    have hcond : ¬ (pyStrip r.id ≠ "" ∧ pyStrip r.id ∉ seen) := by
      rcases hr with he | hm
      · intro hc; exact hc.1 he
      · intro hc; exact hc.2 hm
    simp only [dedupNotify, if_neg hcond]
    exact ih seen (fun q hq => h q (List.mem_cons_of_mem _ hq))

/-- Claim C1: running the dedup and notify loop a second time over the same
record sequence, starting from the seen-set the first run produced, emits no
notification, counts zero new records and leaves the seen-set unchanged:
every notified id was added to the seen-set before the next record was
considered. -/
theorem dedup_notify_idempotent (results : List Record) (seen : List String) :
    dedupNotify results (dedupNotify results seen).1 = ((dedupNotify results seen).1, [], 0) := by
  apply dedupNotify_noop
  intro r hr
  by_cases h : pyStrip r.id = ""
  · exact Or.inl h
  · exact Or.inr (dedupNotify_covers results seen r hr h)

/-! ### Lemmas about the header scan -/

lemma scanCols_date (row_texts : List String) : ∀ (headers : List String) (idx : Nat) (v d a : String),
    (scanCols headers row_texts idx v d a).2.1 =
      if d = "" then firstDateFrom headers row_texts idx else d := by
  intro headers
  induction headers with
  | nil =>
    intro idx v d a
    by_cases hd : d = "" <;> simp [scanCols, firstDateFrom, hd]
  | cons head rest ih =>
    intro idx v d a
    simp only [scanCols, firstDateFrom]
    by_cases hd : d = ""
    · by_cases hc : pyContains (pyLower head) "date" = true
      · by_cases hv : row_texts.getD idx "" = ""
        · rw [ih]; simp [hd, hc, hv]
        · rw [ih]; simp [hd, hc, hv]
      · rw [ih]; simp [hd, hc]
    · rw [ih]; simp [hd]

lemma scanCols_amount (row_texts : List String) : ∀ (headers : List String) (idx : Nat) (v d a : String),
    (scanCols headers row_texts idx v d a).2.2 =
      if a = "" then firstAmountFrom headers row_texts idx else a := by
  intro headers
  induction headers with
  | nil =>
    intro idx v d a
    by_cases ha : a = "" <;> simp [scanCols, firstAmountFrom, ha]
  | cons head rest ih =>
    intro idx v d a
    simp only [scanCols, firstAmountFrom]
    rw [ih]
    split_ifs <;> first | rfl | simp_all

/-- Claim C6 (amended): the date field equals the value of the first
date-headed column whose value is non-empty; when every date-headed column
has an empty value, or none exists, the full row text is searched for the
first two digits/two digits/four digits pattern, else the date is empty. -/
theorem mkRecord_date_characterization (headers : List String) (tr : Tr) :
    (mkRecord headers tr).date =
      if firstDateFrom headers tr.tds 0 = ""
      then (findDatePattern (pyJoin " " tr.tds)).getD ""
      else firstDateFrom headers tr.tds 0 := by
  have h1 : (mkRecord headers tr).date =
      (if (scanCols headers tr.tds 0 "" "" "").2.1 = ""
       then (findDatePattern (pyJoin " " tr.tds)).getD ""
       else (scanCols headers tr.tds 0 "" "" "").2.1) := rfl
  rw [h1, scanCols_date]
  simp

/-- Claim C7 (amended): the amount field equals the value of the first
column, among positions covered by the header list, whose header holds
"amount" or "value" or whose cell text holds a dollar sign, and whose cell
value is non-empty; it is empty when there is none.  Cells beyond the header
list, and all cells when the table has no header cells, are never examined. -/
theorem mkRecord_amount_characterization (headers : List String) (tr : Tr) :
    (mkRecord headers tr).amount = firstAmountFrom headers tr.tds 0 := by
  have h1 : (mkRecord headers tr).amount = (scanCols headers tr.tds 0 "" "" "").2.2 := rfl
  rw [h1, scanCols_amount]
  simp

/-! ### Lemmas about the table extractor -/

lemma parse_rows_foldl (hs : List String) : ∀ (l : List Tr) (acc : List Record),
    List.foldl (fun acc tr => if tr.tds = [] then acc else acc ++ [mkRecord hs tr]) acc l
      = acc ++ (l.filter (fun tr => decide (tr.tds ≠ []))).map (mkRecord hs) := by
  intro l
  induction l with
  | nil => intro acc; simp
  | cons tr rest ih =>
    intro acc
    by_cases h : tr.tds = []
    · simp only [List.foldl_cons, if_pos h, List.filter_cons]
      rw [ih]
      simp [h]
    · simp only [List.foldl_cons, if_neg h, List.filter_cons]
      rw [ih]
      simp [h]

lemma parse_eq_of_best {tables : List Table} {bt : Table} (hbt : bestTable tables = some bt) :
    parse_results_table tables = (bt.trs.filter (fun tr => decide (tr.tds ≠ []))).map (mkRecord bt.ths) := by
  have h := parse_rows_foldl bt.ths bt.trs []
  simp only [List.nil_append] at h
  unfold parse_results_table
  rw [hbt]
  exact h

lemma mem_parse {tables : List Table} {r : Record} (hr : r ∈ parse_results_table tables) :
    ∃ bt tr, bestTable tables = some bt ∧ tr ∈ bt.trs ∧ r = mkRecord bt.ths tr := by
  cases hbt : bestTable tables with
  | none =>
    rw [parse_results_table, hbt] at hr
    exact absurd hr (List.not_mem_nil r)
  | some bt =>
    rw [parse_eq_of_best hbt] at hr
    simp only [List.mem_map, List.mem_filter] at hr
    obtain ⟨tr, ⟨htr, _⟩, hre⟩ := hr
    exact ⟨bt, tr, rfl, htr, hre.symm⟩

lemma mkRecord_title_nolink (hs : List String) (tds : List String) :
    (mkRecord hs ⟨tds, []⟩).title = "FPDS Result" := rfl

lemma mkRecord_title_link (hs : List String) (tds : List String) (a : Anchor) (rest : List Anchor) :
    (mkRecord hs ⟨tds, a :: rest⟩).title = if a.text = "" then "FPDS Result" else a.text := rfl

lemma mkRecord_title_ne (hs : List String) (tr : Tr) : (mkRecord hs tr).title ≠ "" := by
  obtain ⟨tds, links⟩ := tr
  cases links with
  | nil =>
    rw [mkRecord_title_nolink]
    decide
  | cons a rest =>
    rw [mkRecord_title_link]
    by_cases ht : a.text = ""
    · rw [if_pos ht]; decide
    · rw [if_neg ht]; exact ht

lemma mkRecord_id_nolink (hs : List String) (tds : List String) :
    (mkRecord hs ⟨tds, []⟩).id = "FPDS Result" := rfl

lemma mkRecord_link_nolink (hs : List String) (tds : List String) :
    (mkRecord hs ⟨tds, []⟩).link = rootUrl := rfl

lemma mkRecord_id_link_empty_text (hs : List String) (tds : List String) (a : Anchor) (rest : List Anchor) (ht : a.text = "") :
    (mkRecord hs ⟨tds, a :: rest⟩).id = pyStrip (lastSegment a.href) := by
  show pyStrip (if a.text ≠ "" then a.text else lastSegment a.href) = pyStrip (lastSegment a.href)
  rw [if_neg (fun h => h ht)]

lemma mkRecord_id_link_text (hs : List String) (tds : List String) (a : Anchor) (rest : List Anchor) (ht : a.text ≠ "") :
    (mkRecord hs ⟨tds, a :: rest⟩).id = pyStrip a.text := by
  show pyStrip (if a.text ≠ "" then a.text else lastSegment a.href) = pyStrip a.text
  rw [if_pos ht]

/-- Claim C2: evaluation at the failing input.  For the two link-less data
rows the extractor emits id "FPDS Result" for both — the defaulted title is
always non-empty and preempts the row-text fallback of line 118, which is
unreachable — instead of the concatenated cell text truncated to 120
characters; the link does default to the portal root as claimed. -/
theorem linkless_row_id_placeholder_eval :
    (parse_results_table [tableNoLinks]).map Record.id = ["FPDS Result", "FPDS Result"] ∧
    ["FPDS Result", "FPDS Result"] ≠ [pySlice 120 (pyJoin "|" ["r1"]), pySlice 120 (pyJoin "|" ["A", "B"])] ∧
    (parse_results_table [tableNoLinks]).map Record.link = [rootUrl, rootUrl] := by
  decide

/-- Claim C3 counterexample: at this concrete input the first data row has a
hyperlink with empty visible text whose address ends in a slash, and the
extractor emits an empty id for it. -/
theorem parse_empty_id_counterexample :
    ¬ (∀ r ∈ parse_results_table [tableSlashLink], r.id ≠ "") := by
  decide

/-- Claim C3 (amended): every produced record has a non-empty id except when
the first hyperlink of the row has empty visible text and the final path
segment of its address strips to the empty string (in particular addresses
ending in a path separator); in that case the id is empty. -/
theorem mkRecord_id_nonempty_cases (headers : List String) (tr : Tr)
    (h : match tr.links with
         | [] => True
         | a :: _ => pyStrip (if a.text = "" then lastSegment a.href else a.text) ≠ "") :
    (mkRecord headers tr).id ≠ "" := by
  obtain ⟨tds, links⟩ := tr
  cases links with
  | nil =>
    rw [mkRecord_id_nolink]
    decide
  | cons a rest =>
    by_cases ht : a.text = ""
    · rw [mkRecord_id_link_empty_text headers tds a rest ht]
      simpa [ht] using h
    · rw [mkRecord_id_link_text headers tds a rest ht]
      simpa [ht] using h

theorem mkRecord_id_nonempty_cases_witness :
    (mkRecord [] ⟨["x"], [⟨"/a/b", "T"⟩]⟩).id ≠ "" :=
  mkRecord_id_nonempty_cases [] ⟨["x"], [⟨"/a/b", "T"⟩]⟩ (by decide)

/-- Claim C6 counterexample: the first column is date-headed but its cell is
empty, so the code falls through to the row-text regex search and emits the
matched date instead of the empty first-column value the claim requires. -/
theorem date_empty_column_fallback_counterexample :
    (parse_results_table [tableEmptyDateCol]).map Record.date = ["01/02/2024"] ∧
    ("01/02/2024" : String) ≠ "" := by
  decide

/-- Claim C7 counterexample: the table has no header cells, so the scan never
runs and the dollar-bearing cell is ignored; the claim requires its value to
be picked up. -/
theorem amount_headerless_counterexample :
    (parse_results_table [tableHeaderless]).map Record.amount = ["", ""] ∧
    (["", ""] : List String) ≠ ["$100", ""] := by
  decide

lemma bestStep_fixed : ∀ (tables : List Table) (acc : Option Table × Nat),
    (∀ t ∈ tables, t.trs.length ≤ 1) → List.foldl bestStep acc tables = acc := by
  intro tables
  induction tables with
  | nil => intro acc _; rfl
  | cons t rest ih =>
    intro acc h
    have h1 : ¬ (t.trs.length > acc.2 ∧ t.trs.length > 1) := by
      intro hc
      have h2 := h t (List.mem_cons_self _ _)
      omega
    simp only [List.foldl_cons, bestStep, if_neg h1]
    exact ih acc (fun q hq => h q (List.mem_cons_of_mem _ hq))

/-- Claim C8: for every markup input in which no table has more than one row,
the extractor returns the empty sequence; freedom from exceptions is
modelled by the totality of `parse_results_table`. -/
theorem parse_no_qualifying_table_empty (tables : List Table)
    (h : ∀ t ∈ tables, t.trs.length ≤ 1) :
    parse_results_table tables = [] := by
  have hb : bestTable tables = none := by
    unfold bestTable
    rw [bestStep_fixed tables (none, 0) h]
  rw [parse_results_table, hb]

theorem parse_no_qualifying_table_empty_witness :
    (∀ t ∈ [(⟨[], [⟨["a"], []⟩]⟩ : Table)], t.trs.length ≤ 1) ∧
    parse_results_table [(⟨[], [⟨["a"], []⟩]⟩ : Table)] = [] :=
  ⟨by decide, parse_no_qualifying_table_empty _ (by decide)⟩

/-- Claim C10: every record produced by the extractor has a non-empty title;
when the first hyperlink of a row has empty visible text the emitted title
is the placeholder "FPDS Result" while the id is derived from the final path
segment of the link address. -/
theorem parse_title_nonempty_and_placeholder :
    (∀ (tables : List Table) (r : Record), r ∈ parse_results_table tables → r.title ≠ "") ∧
    (∀ (headers : List String) (tr : Tr) (a : Anchor) (rest : List Anchor),
      tr.links = a :: rest → a.text = "" →
      (mkRecord headers tr).title = "FPDS Result" ∧
      (mkRecord headers tr).id = pyStrip (lastSegment a.href)) := by
  constructor
  · intro tables r hr
    obtain ⟨bt, tr, _, _, hre⟩ := mem_parse hr
    rw [hre]
    exact mkRecord_title_ne bt.ths tr
  · intro headers tr a rest hlinks ht
    obtain ⟨tds, links⟩ := tr
    subst hlinks
    constructor
    · rw [mkRecord_title_link, if_pos ht]
    · exact mkRecord_id_link_empty_text headers tds a rest ht

theorem parse_title_nonempty_and_placeholder_witness :
    ((mkRecord [] ⟨["x"], [⟨"/a/b", ""⟩]⟩).title ≠ "") ∧
    ((mkRecord [] ⟨["x"], [⟨"/a/b", ""⟩]⟩).title = "FPDS Result" ∧
     (mkRecord [] ⟨["x"], [⟨"/a/b", ""⟩]⟩).id = pyStrip (lastSegment "/a/b")) :=
  ⟨parse_title_nonempty_and_placeholder.1 [⟨[], [⟨["x"], [⟨"/a/b", ""⟩]⟩, ⟨["y"], []⟩]⟩] _ (by decide),
   parse_title_nonempty_and_placeholder.2 [] ⟨["x"], [⟨"/a/b", ""⟩]⟩ ⟨"/a/b", ""⟩ [] rfl rfl⟩

/-! ### Run-level theorems -/

/-- Claim C4: evaluation of the intact dedup stage at the failing input.
Lines 193-196 of `run_once` open a `try:` with no indented block — a fatal
indentation error, so the frozen module never parses, no run ever executes
and no notification is ever sent; the timeout path the claim describes does
not exist in the program (`run_once` also references the undefined names
`results_collected` and `results` at lines 214, 229 and 234).  This theorem
records what the syntactically intact `main` (lines 236-264) does with the
empty record set such a run was meant to produce: zero ids are added to the
seen-set, nothing is persisted, and the only stage-level message is the
no-results summary. -/
theorem main_on_empty_scrape (startDate endDate : String) (seen : List String) :
    mainRun startDate endDate (Except.ok []) seen = ([noResultsMsg startDate endDate], seen, false) := rfl

/-- Claim C5 counterexample: a run that completed without an exception but
collected zero records returns before `save_seen`; the state is not
persisted. -/
theorem empty_results_not_persisted_counterexample :
    (mainRun "01/01/2024" "01/31/2024" (Except.ok []) ["a"]).2.2 = false := rfl

/-- Claim C5 (amended): for every run in which the scrape completed without
an exception and collected at least one record, the final seen-set is
persisted at the end of the run — including when zero of the records are
new; a run with an empty record set returns after its summary notification
without persisting. -/
theorem nonempty_results_always_persisted (startDate endDate : String) (results : List Record) (seen : List String) (h : results ≠ []) :
    (mainRun startDate endDate (Except.ok results) seen).2.2 = true := by
  simp only [mainRun, if_neg h]

theorem nonempty_results_always_persisted_witness :
    ([recX] ≠ ([] : List Record)) ∧
    (mainRun "01/01/2024" "01/31/2024" (Except.ok [recX]) []).2.2 = true :=
  ⟨by decide, nonempty_results_always_persisted "01/01/2024" "01/31/2024" [recX] [] (by decide)⟩

/-! ### Lemmas about the selector-fallback interactor -/

lemma safe_fill_eq (page : Page) (value : String) : ∀ cs, safe_fill page cs value = fallbackRun (fillCandOk page value) cs := by
  intro cs
  induction cs with
  | nil => rfl
  | cons sel rest ih =>
    by_cases hl : pyStartsWith sel "label:" = true
    · by_cases hf : page.labelFill (labelText sel) value = true
      · simp [safe_fill, fallbackRun, fillCandOk, hl, hf]
      · simp [safe_fill, fallbackRun, fillCandOk, hl, hf, ih]
    · cases hc : page.locatorCount sel with
      | none => simp [safe_fill, fallbackRun, fillCandOk, hl, hc, ih]
      | some n =>
        by_cases hn : 0 < n
        · by_cases hf : page.firstFill sel value = true
          · simp [safe_fill, fallbackRun, fillCandOk, hl, hc, hn, hf]
          · simp [safe_fill, fallbackRun, fillCandOk, hl, hc, hn, hf, ih]
        · simp [safe_fill, fallbackRun, fillCandOk, hl, hc, hn, ih]

lemma safe_type_eq (page : Page) (value : String) : ∀ cs, safe_type page cs value = fallbackRun (typeCandOk page value) cs := by
  intro cs
  induction cs with
  | nil => rfl
  | cons sel rest ih =>
    by_cases hl : pyStartsWith sel "label:" = true
    · by_cases hf : page.labelTypeSeq (labelText sel) value = true
      · simp [safe_type, fallbackRun, typeCandOk, hl, hf]
      · simp [safe_type, fallbackRun, typeCandOk, hl, hf, ih]
    · cases hc : page.locatorCount sel with
      | none => simp [safe_type, fallbackRun, typeCandOk, hl, hc, ih]
      | some n =>
        by_cases hn : 0 < n
        · by_cases hf : page.firstTypeSeq sel value = true
          · simp [safe_type, fallbackRun, typeCandOk, hl, hc, hn, hf]
          · simp [safe_type, fallbackRun, typeCandOk, hl, hc, hn, hf, ih]
        · simp [safe_type, fallbackRun, typeCandOk, hl, hc, hn, ih]

lemma click_first_eq (page : Page) : ∀ cs, click_first_that_exists page cs = fallbackRun (clickCandOk page) cs := by
  intro cs
  induction cs with
  | nil => rfl
  | cons sel rest ih =>
    cases hc : page.locatorCount sel with
    | none => simp [click_first_that_exists, fallbackRun, clickCandOk, hc, ih]
    | some n =>
      by_cases hn : 0 < n
      · by_cases hf : page.firstClick sel = true
        · simp [click_first_that_exists, fallbackRun, clickCandOk, hc, hn, hf]
        · simp [click_first_that_exists, fallbackRun, clickCandOk, hc, hn, hf, ih]
      · simp [click_first_that_exists, fallbackRun, clickCandOk, hc, hn, ih]

lemma fallbackRun_false_iff (ok : String → Bool) : ∀ cs, (fallbackRun ok cs).1 = false ↔ ∀ c ∈ cs, ok c = false := by
  intro cs
  induction cs with
  | nil => simp [fallbackRun]
  | cons c rest ih =>
    by_cases h : ok c = true
    · simp [fallbackRun, h]
    · have h0 : ok c = false := by revert h; cases ok c <;> simp
      simp [fallbackRun, h0, ih]

lemma fallbackRun_first (ok : String → Bool) : ∀ (c1 : List String) (c : String) (c2 : List String),
    (∀ x ∈ c1, ok x = false) → ok c = true → fallbackRun ok (c1 ++ c :: c2) = (true, [c]) := by
  intro c1
  induction c1 with
  | nil =>
    intro c c2 _ hc
    simp [fallbackRun, hc]
  | cons x xs ih =>
    intro c c2 hall hc
    have hx : ok x = false := hall x (List.mem_cons_self _ _)
    simp only [List.cons_append, fallbackRun, hx]
    rw [if_neg (by simp [hx])]
    exact ih c c2 (fun y hy => hall y (List.mem_cons_of_mem _ hy)) hc

/-- Claim C9: for each of `safe_fill`, `safe_type` and
`click_first_that_exists`, the wrapper returns false exactly when every
candidate fails (fails to resolve, resolves to zero elements, or errors),
and otherwise it performs the action on the first succeeding candidate and
returns true at once, never touching the candidates after it; freedom from
escaping exceptions is modelled by the totality of the three functions. -/
theorem selector_fallback_contract (page : Page) (value : String) :
    ((∀ cs, (safe_fill page cs value).1 = false ↔ ∀ c ∈ cs, fillCandOk page value c = false) ∧
     (∀ (c1 : List String) (c : String) (c2 : List String),
       (∀ x ∈ c1, fillCandOk page value x = false) → fillCandOk page value c = true →
       safe_fill page (c1 ++ c :: c2) value = (true, [c]))) ∧
    ((∀ cs, (safe_type page cs value).1 = false ↔ ∀ c ∈ cs, typeCandOk page value c = false) ∧
     (∀ (c1 : List String) (c : String) (c2 : List String),
       (∀ x ∈ c1, typeCandOk page value x = false) → typeCandOk page value c = true →
       safe_type page (c1 ++ c :: c2) value = (true, [c]))) ∧
    ((∀ cs, (click_first_that_exists page cs).1 = false ↔ ∀ c ∈ cs, clickCandOk page c = false) ∧
     (∀ (c1 : List String) (c : String) (c2 : List String),
       (∀ x ∈ c1, clickCandOk page x = false) → clickCandOk page c = true →
       click_first_that_exists page (c1 ++ c :: c2) = (true, [c]))) := by
  refine ⟨⟨?_, ?_⟩, ⟨?_, ?_⟩, ⟨?_, ?_⟩⟩
  · intro cs; rw [safe_fill_eq]; exact fallbackRun_false_iff _ cs
  · intro c1 c c2 hall hc; rw [safe_fill_eq]; exact fallbackRun_first _ c1 c c2 hall hc
  · intro cs; rw [safe_type_eq]; exact fallbackRun_false_iff _ cs
  · intro c1 c c2 hall hc; rw [safe_type_eq]; exact fallbackRun_first _ c1 c c2 hall hc
  · intro cs; rw [click_first_eq]; exact fallbackRun_false_iff _ cs
  · intro c1 c c2 hall hc; rw [click_first_eq]; exact fallbackRun_first _ c1 c c2 hall hc

theorem selector_fallback_contract_witness :
    safe_fill pageW (["bad"] ++ "a" :: ["b"]) "v" = (true, ["a"]) ∧
    safe_type pageW (["bad"] ++ "a" :: ["b"]) "v" = (true, ["a"]) ∧
    click_first_that_exists pageW (["bad"] ++ "a" :: ["b"]) = (true, ["a"]) ∧
    ((safe_fill pageW ["bad"] "v").1 = false ↔ ∀ c ∈ ["bad"], fillCandOk pageW "v" c = false) :=
  ⟨(selector_fallback_contract pageW "v").1.2 ["bad"] "a" ["b"] (by decide) (by decide),
   (selector_fallback_contract pageW "v").2.1.2 ["bad"] "a" ["b"] (by decide) (by decide),
   (selector_fallback_contract pageW "v").2.2.2 ["bad"] "a" ["b"] (by decide) (by decide),
   (selector_fallback_contract pageW "v").1.1 ["bad"]⟩
